import Mathlib

/-!
Verification of the finance-tracker reconciliation / currency / budget-alert core.

Shallow embedding of the JavaScript sources:
  * `src/frontend/src/utils/currencyUtils.js`   (currency conversion service)
  * `src/frontend/src/utils/budgetService.js`   (budget evaluator)
  * `src/frontend/src/utils/alertsService.js`   (alert store and deduplicator)
  * `src/frontend/src/hooks/useTransactions.js` (normalizer / aggregator)

JavaScript numbers are modelled as exact rationals (`ℚ`); `NaN` and the other
JavaScript primitive values that the code's truthiness tests distinguish are
modelled explicitly by `JSVal` / `JSNum`.  `Number.prototype.toFixed(2)` picks,
of the two nearest multiples of 1/100, the larger one on ties, which is exactly
`round` on `ℚ` scaled by 100.
-/

namespace FinTrack

/-- A JavaScript number: either an actual (finite) numeric value, modelled as an
exact rational, or `NaN`. -/
inductive JSNum where
  | num (q : ℚ)
  | nan
deriving DecidableEq

/-- The JavaScript primitive values that the embedded code distinguishes via
truthiness tests, `isNaN` and arithmetic coercion: finite numbers, `NaN`,
`null`, `undefined` and booleans. -/
inductive JSVal where
  | num (q : ℚ)
  | nan
  | vnull
  | undef
  | bool (b : Bool)
deriving DecidableEq

/-- JavaScript truthiness of a `JSVal` (`0`, `NaN`, `null`, `undefined` and
`false` are falsy). -/
def jsTruthy : JSVal → Bool
  | .num q => decide (q ≠ 0)
  | .nan => false
  | .vnull => false
  | .undef => false
  | .bool b => b

/-- JavaScript `Number(v)` coercion (`null ↦ 0`, `undefined ↦ NaN`,
`true ↦ 1`, `false ↦ 0`). -/
def jsToNumber : JSVal → JSNum
  | .num q => .num q
  | .nan => .nan
  | .vnull => .num 0
  | .undef => .nan
  | .bool b => .num (if b then 1 else 0)

/-- JavaScript global `isNaN(v)`: coerce with `Number` and test for `NaN`. -/
def jsIsNaN (v : JSVal) : Bool :=
  jsToNumber v = JSNum.nan

/-- JavaScript `parseFloat(v)`: the argument is first converted to a string and
then parsed.  A finite number round-trips; `null`, `undefined`, `NaN` and
booleans stringify to words that do not parse, giving `NaN`. -/
def jsParseFloat : JSVal → JSNum
  | .num q => .num q
  | .nan => .nan
  | .vnull => .nan
  | .undef => .nan
  | .bool _ => .nan

/-- Extract the rational value of a `JSNum`, reading `NaN` as 0.  Used only to
state theorems about results that are proved to be numeric. -/
def JSNum.toQ : JSNum → ℚ
  | .num q => q
  | .nan => 0

/-- `Math.round(q)` on an exact rational: round to the nearest integer, ties
toward the larger value, which is `round` on `ℚ`. -/
def jsRound (q : ℚ) : ℤ :=
  round q

/-- `x.toFixed(2)` followed by `parseFloat`, on an exact rational: round to the
nearest multiple of 1/100, ties toward the larger value, exactly as
`Number.prototype.toFixed` specifies. -/
def round2 (q : ℚ) : ℚ :=
  (jsRound (100 * q) : ℤ) / 100

/-- Evaluation rule for `jsRound` on concrete rationals (the `norm_num`
counterpart of evaluating `Math.round`). -/
theorem jsRound_eq {q : ℚ} (n : ℤ) (h1 : (n : ℚ) ≤ q + 1 / 2) (h2 : q + 1 / 2 < n + 1) :
    jsRound q = n := by
  rw [jsRound, round_eq]
  exact Int.floor_eq_iff.mpr ⟨h1, h2⟩

/-- Evaluation rule for `round2` on concrete rationals. -/
theorem round2_eq {q : ℚ} (n : ℤ) (h1 : (n : ℚ) ≤ 100 * q + 1 / 2)
    (h2 : 100 * q + 1 / 2 < n + 1) : round2 q = (n : ℚ) / 100 := by
  rw [round2, jsRound_eq n h1 h2]

/-- The built-in fallback exchange-rate table `exchangeRates` of
`currencyUtils.js` (rates relative to the USD base). -/
def exchangeRates : List (String × ℚ) :=
  [("USD", 1), ("KES", 129.5), ("EUR", 0.92), ("GBP", 0.79), ("INR", 84.0), ("JPY", 150.0)]

/-- JavaScript property access `table[c]` on an object modelled as an
association list (`undefined` becomes `none`). -/
def lookupQ : List (String × ℚ) → String → Option ℚ
  | [], _ => none
  | p :: ps, c => if p.1 = c then some p.2 else lookupQ ps c

/-- JavaScript `a || d` where `a` is an optional rate read off a table:
an absent key (`undefined`) and a zero rate are falsy and fall through to `d`. -/
def jsOrRate : Option ℚ → ℚ → ℚ
  | some v, d => if v = 0 then d else v
  | none, d => d

/-- The rate-resolution chain `rates[c] || exchangeRates[c] || 1` used by both
`convertCurrency` and `getExchangeRate` in `currencyUtils.js`. -/
def resolveRate (rates : List (String × ℚ)) (c : String) : ℚ :=
  jsOrRate (lookupQ rates c) (jsOrRate (lookupQ exchangeRates c) 1)

/-- `convertCurrency(amount, fromCurrency, toCurrency, rates)` from
`currencyUtils.js`:

```js
if (!amount || isNaN(amount)) return 0;
if (fromCurrency === toCurrency) return parseFloat(amount);
const fromRate = rates[fromCurrency] || exchangeRates[fromCurrency] || 1;
const toRate = rates[toCurrency] || exchangeRates[toCurrency] || 1;
const converted = (amount / fromRate) * toRate;
return parseFloat(converted.toFixed(2));
```
-/
def convertCurrency (amount : JSVal) (fromCurrency toCurrency : String)
    (rates : List (String × ℚ)) : JSNum :=
  if ¬ jsTruthy amount ∨ jsIsNaN amount then .num 0
  else if fromCurrency = toCurrency then jsParseFloat amount
  else
    match jsToNumber amount with
    | .nan => .nan
    | .num q =>
        .num (round2 (q / resolveRate rates fromCurrency * resolveRate rates toCurrency))

/-! ### Unfolding lemmas for `convertCurrency` -/

theorem convertCurrency_of_falsy {amount : JSVal} (h : jsTruthy amount = false)
    (f t : String) (rates : List (String × ℚ)) :
    convertCurrency amount f t rates = .num 0 := by
  rw [convertCurrency, if_pos (Or.inl (by simp [h]))]

theorem convertCurrency_of_nan {amount : JSVal} (h : jsIsNaN amount = true)
    (f t : String) (rates : List (String × ℚ)) :
    convertCurrency amount f t rates = .num 0 := by
  rw [convertCurrency, if_pos (Or.inr (by simp [h]))]

theorem convertCurrency_of_same {amount : JSVal} (h1 : jsTruthy amount = true)
    (h2 : jsIsNaN amount = false) {f t : String} (hft : f = t) (rates : List (String × ℚ)) :
    convertCurrency amount f t rates = jsParseFloat amount := by
  rw [convertCurrency, if_neg (by simp [h1, h2]), if_pos hft]

theorem convertCurrency_num {x : ℚ} (hx : x ≠ 0) {f t : String} (hft : f ≠ t)
    (rates : List (String × ℚ)) :
    convertCurrency (.num x) f t rates
      = .num (round2 (x / resolveRate rates f * resolveRate rates t)) := by
  rw [convertCurrency, if_neg (by simp [jsTruthy, jsIsNaN, jsToNumber, hx]), if_neg hft]
  rfl

/-! ### Concrete rates of the built-in table -/

theorem lookupQ_builtin_USD : lookupQ exchangeRates "USD" = some 1 := rfl

theorem lookupQ_builtin_KES : lookupQ exchangeRates "KES" = some 129.5 := rfl

theorem lookupQ_builtin_EUR : lookupQ exchangeRates "EUR" = some 0.92 := rfl

theorem resolveRate_builtin_USD (t : List (String × ℚ)) (h : lookupQ t "USD" = none) :
    resolveRate t "USD" = 1 := by
  rw [resolveRate, h, lookupQ_builtin_USD]
  norm_num [jsOrRate]

theorem resolveRate_builtin_KES (t : List (String × ℚ)) (h : lookupQ t "KES" = none) :
    resolveRate t "KES" = 259 / 2 := by
  rw [resolveRate, h, lookupQ_builtin_KES]
  norm_num [jsOrRate]

theorem resolveRate_builtin_EUR (t : List (String × ℚ)) (h : lookupQ t "EUR" = none) :
    resolveRate t "EUR" = 23 / 25 := by
  rw [resolveRate, h, lookupQ_builtin_EUR]
  norm_num [jsOrRate]

theorem resolveRate_rates_USD : resolveRate exchangeRates "USD" = 1 := by
  rw [resolveRate, lookupQ_builtin_USD]
  norm_num [jsOrRate]

theorem resolveRate_rates_KES : resolveRate exchangeRates "KES" = 259 / 2 := by
  rw [resolveRate, lookupQ_builtin_KES]
  norm_num [jsOrRate]

theorem resolveRate_rates_EUR : resolveRate exchangeRates "EUR" = 23 / 25 := by
  rw [resolveRate, lookupQ_builtin_EUR]
  norm_num [jsOrRate]

/-- Rounding to two decimals moves a rational by at most 1/200. -/
theorem abs_round2_sub (q : ℚ) : |round2 q - q| ≤ 1 / 200 := by
  have h : |(round (100 * q) : ℚ) - 100 * q| ≤ 1 / 2 := by
    rw [abs_sub_comm]
    exact abs_sub_round (100 * q)
  have : round2 q - q = ((round (100 * q) : ℚ) - 100 * q) / 100 := by
    rw [round2, jsRound]
    ring
  rw [this, abs_div]
  rw [show |(100 : ℚ)| = 100 by norm_num]
  linarith

theorem round2_eq_zero {q : ℚ} (h : round2 q = 0) : |q| ≤ 1 / 200 := by
  have := abs_round2_sub q
  rw [h] at this
  simpa [abs_sub_comm] using this

/-! ### Claims C6, C9, C10 (currency conversion service) -/

theorem convertCurrency_KES_EUR_one :
    convertCurrency (.num 1) "KES" "EUR" exchangeRates = .num (1 / 100) := by
  rw [convertCurrency_num one_ne_zero (by decide) exchangeRates, resolveRate_rates_KES,
    resolveRate_rates_EUR, round2_eq 1 (by norm_num) (by norm_num)]
  norm_num

theorem convertCurrency_EUR_KES_cent :
    convertCurrency (.num (1 / 100)) "EUR" "KES" exchangeRates = .num (141 / 100) := by
  rw [convertCurrency_num (by norm_num) (by decide) exchangeRates, resolveRate_rates_EUR,
    resolveRate_rates_KES, round2_eq 141 (by norm_num) (by norm_num)]
  norm_num

/-- C6 counterexample: converting 1 KES to EUR (giving 0.01 EUR after 2-decimal
rounding) and back to KES gives 1.41 KES, which differs from the original
amount by 0.41 > 0.01.  The claimed universal 0.01 round-trip tolerance is
false on the built-in rate table. -/
theorem claim_C6_counterexample :
    ¬ (|JSNum.toQ (convertCurrency
          (.num (JSNum.toQ (convertCurrency (.num 1) "KES" "EUR" exchangeRates)))
          "EUR" "KES" exchangeRates) - 1| ≤ 1 / 100) := by
  rw [convertCurrency_KES_EUR_one]
  simp only [JSNum.toQ]
  rw [convertCurrency_EUR_KES_cent]
  simp only [JSNum.toQ]
  norm_num
  rw [abs_of_pos (by norm_num)]
  norm_num

/-- C6 (amended): the 0.01 round-trip tolerance
`|convert(convert(x, A, B), B, A) - x| ≤ 0.01` holds whenever the resolved
rate of `A` is positive and at most the resolved rate of `B`; the two
2-decimal roundings each contribute at most 0.005, the second scaled by
`rate(A)/rate(B) ≤ 1`.  (For `rate(A) > rate(B)` the error scales by
`rate(A)/rate(B)` and can exceed 0.01, as the counterexample shows.) -/
theorem claim_C6_roundtrip (x : ℚ) (A B : String) (table : List (String × ℚ))
    (hA : 0 < resolveRate table A) (hAB : resolveRate table A ≤ resolveRate table B) :
    |JSNum.toQ (convertCurrency
        (.num (JSNum.toQ (convertCurrency (.num x) A B table))) B A table) - x| ≤ 1 / 100 := by
  have hB : 0 < resolveRate table B := lt_of_lt_of_le hA hAB
  set rA := resolveRate table A with hrA
  set rB := resolveRate table B with hrB
  have hratio1 : rA / rB ≤ 1 := (div_le_one hB).mpr hAB
  have hratio0 : 0 ≤ rA / rB := le_of_lt (div_pos hA hB)
  have hz : jsTruthy (JSVal.num 0) = false := rfl
  by_cases hx : x = 0
  · subst hx
    rw [convertCurrency_of_falsy hz A B table]
    simp only [JSNum.toQ]
    rw [convertCurrency_of_falsy hz B A table]
    simp only [JSNum.toQ]
    norm_num
  · by_cases hAB' : A = B
    · subst hAB'
      have h1 : jsTruthy (.num x) = true := by simp [jsTruthy, hx]
      have h2 : jsIsNaN (JSVal.num x) = false := rfl
      rw [convertCurrency_of_same h1 h2 rfl table]
      simp only [jsParseFloat, JSNum.toQ]
      rw [convertCurrency_of_same h1 h2 rfl table]
      simp only [jsParseFloat, JSNum.toQ]
      norm_num
    · rw [convertCurrency_num hx hAB' table]
      simp only [JSNum.toQ]
      rw [← hrA, ← hrB]
      set y := round2 (x / rA * rB) with hy
      have herr : |y - x / rA * rB| ≤ 1 / 200 := by
        rw [hy]
        exact abs_round2_sub (x / rA * rB)
      have hxval : x = (x / rA * rB) * (rA / rB) := by
        field_simp
      by_cases hy0 : y = 0
      · rw [hy0]
        rw [convertCurrency_of_falsy hz B A table]
        simp only [JSNum.toQ]
        have hsmall : |x / rA * rB| ≤ 1 / 200 := round2_eq_zero (by rw [← hy]; exact hy0)
        have : |x| ≤ 1 / 200 * (rA / rB) := by
          rw [hxval, abs_mul, abs_of_nonneg hratio0]
          exact mul_le_mul_of_nonneg_right hsmall hratio0
        have hxb : |x| ≤ 1 / 200 := le_trans this (by nlinarith)
        calc |0 - x| = |x| := by rw [zero_sub, abs_neg]
          _ ≤ 1 / 200 := hxb
          _ ≤ 1 / 100 := by norm_num
      · rw [convertCurrency_num hy0 (Ne.symm hAB') table, ← hrA, ← hrB]
        simp only [JSNum.toQ]
        have e1 : |round2 (y / rB * rA) - y / rB * rA| ≤ 1 / 200 := abs_round2_sub _
        have key : y / rB * rA - x = (y - x / rA * rB) * (rA / rB) := by
          field_simp
          ring
        have e2 : |y / rB * rA - x| ≤ 1 / 200 := by
          rw [key, abs_mul, abs_of_nonneg hratio0]
          calc |y - x / rA * rB| * (rA / rB) ≤ 1 / 200 * 1 :=
                mul_le_mul herr hratio1 hratio0 (by norm_num)
            _ = 1 / 200 := by norm_num
        calc |round2 (y / rB * rA) - x|
            ≤ |round2 (y / rB * rA) - y / rB * rA| + |y / rB * rA - x| :=
              abs_sub_le _ _ _
          _ ≤ 1 / 200 + 1 / 200 := add_le_add e1 e2
          _ = 1 / 100 := by norm_num

/-- C6 witness: the amended round-trip bound instantiated at 1 EUR → KES → EUR
on the built-in table (rate(EUR) = 0.92 ≤ 129.5 = rate(KES)). -/
theorem claim_C6_roundtrip_witness :
    |JSNum.toQ (convertCurrency
        (.num (JSNum.toQ (convertCurrency (.num 1) "EUR" "KES" exchangeRates)))
        "KES" "EUR" exchangeRates) - 1| ≤ 1 / 100 :=
  claim_C6_roundtrip 1 "EUR" "KES" exchangeRates
    (by rw [resolveRate_rates_EUR]; norm_num)
    (by rw [resolveRate_rates_EUR, resolveRate_rates_KES]; norm_num)

/-- C9: `convertCurrency` never fails and resolves each rate first from the
supplied table, then from the built-in `exchangeRates` table, then to 1;
for every numeric amount it returns a numeric result. -/
theorem claim_C9_fallback_chain (table : List (String × ℚ)) (c : String) :
    (∀ v : ℚ, lookupQ table c = some v → v ≠ 0 → resolveRate table c = v)
    ∧ (∀ v : ℚ, (lookupQ table c = none ∨ lookupQ table c = some 0) →
        lookupQ exchangeRates c = some v → v ≠ 0 → resolveRate table c = v)
    ∧ ((lookupQ table c = none ∨ lookupQ table c = some 0) →
        (lookupQ exchangeRates c = none ∨ lookupQ exchangeRates c = some 0) →
        resolveRate table c = 1)
    ∧ (∀ (x : ℚ) (f t : String), ∃ q : ℚ, convertCurrency (.num x) f t table = .num q) := by
  refine ⟨?_, ?_, ?_, ?_⟩
  · intro v hv hv0
    rw [resolveRate, hv]
    simp [jsOrRate, hv0]
  · intro v h1 hv hv0
    rcases h1 with h | h <;> rw [resolveRate, h, hv] <;> simp [jsOrRate, hv0]
  · intro h1 h2
    rcases h1 with h | h <;> rcases h2 with h2 | h2 <;> rw [resolveRate, h, h2] <;>
      simp [jsOrRate]
  · intro x f t
    by_cases hx : x = 0
    · subst hx
      exact ⟨0, convertCurrency_of_falsy (show jsTruthy (JSVal.num 0) = false from rfl) f t table⟩
    · by_cases hft : f = t
      · refine ⟨x, ?_⟩
        rw [convertCurrency_of_same (by simp [jsTruthy, hx])
          (show jsIsNaN (JSVal.num x) = false from rfl) hft table]
        rfl
      · exact ⟨_, convertCurrency_num hx hft table⟩

/-- C9 witness: a code absent from both tables resolves to the identity rate 1
and converting with it still returns a numeric result. -/
theorem claim_C9_fallback_chain_witness :
    resolveRate [] "ZZZ" = 1 ∧ ∃ q : ℚ, convertCurrency (.num 5) "ZZZ" "USD" [] = .num q :=
  ⟨(claim_C9_fallback_chain [] "ZZZ").2.2.1 (Or.inl rfl) (Or.inl rfl),
   (claim_C9_fallback_chain [] "ZZZ").2.2.2 5 "ZZZ" "USD"⟩

/-- C10 counterexample: the amount `true` is a non-numeric (boolean) value,
yet `convertCurrency(true, "USD", "EUR")` does not return 0 — `true` is truthy
and coerces to 1, so the conversion proceeds and yields 0.92. -/
theorem claim_C10_counterexample :
    convertCurrency (.bool true) "USD" "EUR" exchangeRates ≠ .num 0 := by
  have hnum : jsToNumber (.bool true) = .num 1 := rfl
  have : convertCurrency (.bool true) "USD" "EUR" exchangeRates = .num (23 / 25) := by
    rw [convertCurrency, if_neg (by simp [jsTruthy, jsIsNaN, hnum]), if_neg (by decide), hnum,
      resolveRate_rates_USD, resolveRate_rates_EUR]
    show JSNum.num (round2 (1 / 1 * (23 / 25))) = JSNum.num (23 / 25)
    rw [round2_eq 92 (by norm_num) (by norm_num)]
    norm_num
  rw [this]
  simp only [ne_eq, JSNum.num.injEq]
  norm_num

/-- C10 (amended): `convertCurrency` returns exactly 0 whenever the amount is
falsy (0, NaN, null, undefined, false) or coerces to NaN under `Number`; the
`from == to` short-circuit is reached exactly when the amount is truthy and
numerically coercible (which includes the non-numeric value `true`). -/
theorem claim_C10_zero_guard (amount : JSVal) (f t : String) (rates : List (String × ℚ)) :
    ((jsTruthy amount = false ∨ jsIsNaN amount = true) →
        convertCurrency amount f t rates = .num 0)
    ∧ (jsTruthy amount = true → jsIsNaN amount = false → f = t →
        convertCurrency amount f t rates = jsParseFloat amount) := by
  constructor
  · rintro (h | h)
    · exact convertCurrency_of_falsy h f t rates
    · exact convertCurrency_of_nan h f t rates
  · intro h1 h2 hft
    exact convertCurrency_of_same h1 h2 hft rates

/-- C10 witness: the guard instantiated at `null` and `NaN` amounts. -/
theorem claim_C10_zero_guard_witness :
    convertCurrency .vnull "EUR" "KES" exchangeRates = .num 0 ∧
    convertCurrency .nan "USD" "USD" exchangeRates = .num 0 :=
  ⟨(claim_C10_zero_guard .vnull "EUR" "KES" exchangeRates).1 (Or.inl rfl),
   (claim_C10_zero_guard .nan "USD" "USD" exchangeRates).1 (Or.inl rfl)⟩

/-! ## Transactions and the budget evaluator (`budgetService.js`)

The canonical transaction record of `useTransactions.js` / `budgetService.js`.
The `date` string is represented by its parsed `Date` value (epoch
milliseconds), which is the only way the code ever compares dates; fields that
no claim reads (`user_id`, `created_at`, `updated_at`, M-Pesa phone / name)
are not modelled. -/

structure Tx where
  id : String
  ttype : String
  amount : ℚ
  category : String
  description : String
  date : ℤ
  source : String
  displayAmount : Option ℚ
  displayCurrency : Option String
  mpesaAmountKes : Option ℚ
deriving DecidableEq

/-- A transaction as stored in the ledger (no display/auxiliary fields yet). -/
def baseTx (id ttype : String) (amount : ℚ) (category description : String)
    (date : ℤ) (source : String) : Tx :=
  ⟨id, ttype, amount, category, description, date, source, none, none, none⟩

/-- One entry of `BUDGET_CATEGORIES` in `budgetService.js`. -/
structure BudgetCategory where
  id : String
  name : String
  icon : String
  color : String
deriving DecidableEq

/-- The fixed `BUDGET_CATEGORIES` table of `budgetService.js`. -/
def BUDGET_CATEGORIES : List BudgetCategory :=
  [⟨"housing", "Housing", "🏠", "text-blue-500"⟩,
   ⟨"transportation", "Transportation", "🚗", "text-green-500"⟩,
   ⟨"food", "Food & Dining", "🍽️", "text-orange-500"⟩,
   ⟨"entertainment", "Entertainment", "🎬", "text-purple-500"⟩,
   ⟨"shopping", "Shopping", "🛍️", "text-pink-500"⟩,
   ⟨"healthcare", "Healthcare", "🏥", "text-red-500"⟩,
   ⟨"education", "Education", "📚", "text-indigo-500"⟩,
   ⟨"personal", "Personal Care", "💅", "text-yellow-500"⟩,
   ⟨"savings", "Savings & Investments", "💰", "text-emerald-500"⟩,
   ⟨"other", "Other", "📦", "text-gray-500"⟩]

/-- Decimal rendering of `n/100` with two fractional digits (the shape of
`Number.prototype.toFixed(2)` output). -/
def fixedRepr (n : ℤ) : String :=
  (if n < 0 then "-" else "") ++ Nat.repr (n.natAbs / 100) ++ "." ++
    (if n.natAbs % 100 < 10 then "0" else "") ++ Nat.repr (n.natAbs % 100)

/-- `q.toFixed(2)` as a string. -/
def toFixed2 (q : ℚ) : String :=
  fixedRepr (jsRound (100 * q))

/-- The repository's three-argument `formatCurrency(amount, currency, rate)`
(the formatter module that `budgetService.js` references): multiply by the
rate, then render.  The `Intl.NumberFormat` branch is abstracted by the
function's own fallback branch `` `${currency} ${converted.toFixed(2)}` `` —
no claim depends on the locale-specific currency-symbol rendering. -/
def formatCurrency (amount : ℚ) (currency : String) (rate : ℚ) : String :=
  currency ++ " " ++ toFixed2 (amount * rate)

/-- `calculateCategorySpending(transactions)` from `budgetService.js`: for
each of the ten predefined categories (and only those), the sum of `amount`
over transactions of that category whose `type` is `"expense"`. -/
def calculateCategorySpending (transactions : List Tx) : List (String × ℚ) :=
  BUDGET_CATEGORIES.map (fun c =>
    (c.id, ((transactions.filter
        (fun tx => tx.category = c.id ∧ tx.ttype = "expense")).map Tx.amount).sum))

/-- An alert draft pushed by `checkBudgetAlerts`. -/
structure BudgetDraft where
  atype : String
  category : String
  title : String
  message : String
  severity : String
deriving DecidableEq

/-- `BUDGET_CATEGORIES.find(c => c.id === category)?.name` interpolated into a
template literal: the display name when found, the string `"undefined"`
otherwise. -/
def jsCatName (cat : String) : String :=
  match BUDGET_CATEGORIES.find? (fun c => c.id = cat) with
  | some c => c.name
  | none => "undefined"

/-- The draft pushed when `percentage >= 100`. -/
def highDraft (cat : String) (spent cap : ℚ) (currency : String) (rate : ℚ) : BudgetDraft :=
  ⟨"warning", cat, "Budget Exceeded: " ++ jsCatName cat,
    "You\x27ve spent " ++ formatCurrency spent currency rate ++ " of " ++
      formatCurrency cap currency rate ++ " budget", "high"⟩

/-- The draft pushed when `80 <= percentage < 100`. -/
def mediumDraft (cat : String) (spent cap : ℚ) (currency : String) (rate : ℚ) : BudgetDraft :=
  ⟨"warning", cat, "Budget Alert: " ++ jsCatName cat,
    "You\x27ve used " ++ toString (jsRound (spent / cap * 100)) ++ "% of your " ++
      formatCurrency cap currency rate ++ " budget", "medium"⟩

/-- Threshold dispatch of `checkBudgetAlerts` on the looked-up cap:
`if (!cap) return;` skips an absent (`undefined`) or zero cap, then the
percentage tiers fire. -/
def entryDraftsAux (currency : String) (rate : ℚ) (cat : String) (spent : ℚ) :
    Option ℚ → List BudgetDraft
  | none => []
  | some cap =>
    if cap = 0 then []
    else if spent / cap * 100 ≥ 100 then [highDraft cat spent cap currency rate]
    else if spent / cap * 100 ≥ 80 then [mediumDraft cat spent cap currency rate]
    else []

/-- The body of the `Object.entries(categorySpending).forEach` callback in
`checkBudgetAlerts`: the drafts pushed for one `(category, spent)` entry. -/
def entryDrafts (spendingCaps : List (String × ℚ)) (currency : String) (rate : ℚ) :
    (String × ℚ) → List BudgetDraft
  | (category, spent) => entryDraftsAux currency rate category spent (lookupQ spendingCaps category)

/-- Sequential `forEach`-with-`push` over the entries. -/
def forEachPush (f : (String × ℚ) → List BudgetDraft) : List (String × ℚ) → List BudgetDraft
  | [] => []
  | p :: ps => f p ++ forEachPush f ps

/-- `checkBudgetAlerts(categorySpending, spendingCaps, currency, rate)` from
`budgetService.js`. -/
def checkBudgetAlerts (categorySpending spendingCaps : List (String × ℚ))
    (currency : String) (rate : ℚ) : List BudgetDraft :=
  forEachPush (entryDrafts spendingCaps currency rate) categorySpending

/-- Substring test on the underlying character lists ("does `hay` contain
`needle`"), used to state the "message contains 92%" property. -/
def charsHavePre [DecidableEq α] : List α → List α → Bool
  | [], _ => true
  | _ :: _, [] => false
  | a :: as, b :: bs => a = b && charsHavePre as bs

def strContainsAux [DecidableEq α] (needle : List α) : List α → Bool
  | [] => charsHavePre needle []
  | c :: cs => charsHavePre needle (c :: cs) || strContainsAux needle cs

def strContains (hay needle : String) : Bool :=
  strContainsAux needle.data hay.data

/-! ### Evaluation lemmas for the budget evaluator -/

theorem entryDrafts_none {caps : List (String × ℚ)} {cur : String} {rate : ℚ}
    {cat : String} {spent : ℚ} (h : lookupQ caps cat = none) :
    entryDrafts caps cur rate (cat, spent) = [] := by
  rw [entryDrafts, h]
  rfl

theorem entryDrafts_zero {caps : List (String × ℚ)} {cur : String} {rate : ℚ}
    {cat : String} {spent : ℚ} (h : lookupQ caps cat = some 0) :
    entryDrafts caps cur rate (cat, spent) = [] := by
  rw [entryDrafts, h]
  simp [entryDraftsAux]

theorem entryDrafts_high {caps : List (String × ℚ)} {cur : String} {rate : ℚ}
    {cat : String} {spent : ℚ} {cap : ℚ} (h : lookupQ caps cat = some cap) (h0 : cap ≠ 0)
    (h100 : spent / cap * 100 ≥ 100) :
    entryDrafts caps cur rate (cat, spent) = [highDraft cat spent cap cur rate] := by
  rw [entryDrafts, h]
  simp only [entryDraftsAux]
  rw [if_neg h0, if_pos h100]

theorem entryDrafts_medium {caps : List (String × ℚ)} {cur : String} {rate : ℚ}
    {cat : String} {spent : ℚ} {cap : ℚ} (h : lookupQ caps cat = some cap) (h0 : cap ≠ 0)
    (h100 : ¬ spent / cap * 100 ≥ 100) (h80 : spent / cap * 100 ≥ 80) :
    entryDrafts caps cur rate (cat, spent) = [mediumDraft cat spent cap cur rate] := by
  rw [entryDrafts, h]
  simp only [entryDraftsAux]
  rw [if_neg h0, if_neg h100, if_pos h80]

theorem entryDrafts_low {caps : List (String × ℚ)} {cur : String} {rate : ℚ}
    {cat : String} {spent : ℚ} {cap : ℚ} (h : lookupQ caps cat = some cap) (h0 : cap ≠ 0)
    (h100 : ¬ spent / cap * 100 ≥ 100) (h80 : ¬ spent / cap * 100 ≥ 80) :
    entryDrafts caps cur rate (cat, spent) = [] := by
  rw [entryDrafts, h]
  simp only [entryDraftsAux]
  rw [if_neg h0, if_neg h100, if_neg h80]

/-- Every draft a spending entry emits carries that entry's category. -/
theorem entryDrafts_category {caps : List (String × ℚ)} {cur : String} {rate : ℚ}
    {p : String × ℚ} {d : BudgetDraft} (hd : d ∈ entryDrafts caps cur rate p) :
    d.category = p.1 := by
  obtain ⟨cat, spent⟩ := p
  rw [entryDrafts] at hd
  rcases hcap : lookupQ caps cat with _ | cap
  · rw [hcap] at hd
    simp [entryDraftsAux] at hd
  · rw [hcap] at hd
    simp only [entryDraftsAux] at hd
    split_ifs at hd with h0 h100 h80
    · simp at hd
    · rw [List.mem_singleton] at hd
      subst hd
      rfl
    · rw [List.mem_singleton] at hd
      subst hd
      rfl
    · simp at hd

/-- A nonzero cap whose percentage check fires on nonnegative spending is
positive. -/
theorem cap_pos_of_threshold {s cap : ℚ} (hs : 0 ≤ s) (h0 : cap ≠ 0)
    (h : s / cap * 100 ≥ 80) : 0 < cap := by
  rcases lt_trichotomy cap 0 with hneg | hz | hpos
  · exfalso
    have h1 : cap⁻¹ < 0 := inv_lt_zero.mpr hneg
    rw [div_eq_mul_inv] at h
    nlinarith [mul_nonneg hs (neg_nonneg.mpr h1.le)]
  · exact absurd hz h0
  · exact hpos

theorem forEachPush_mem {f : (String × ℚ) → List BudgetDraft} {sp : List (String × ℚ)}
    {d : BudgetDraft} (hd : d ∈ forEachPush f sp) : ∃ p ∈ sp, d ∈ f p := by
  induction sp with
  | nil => simp [forEachPush] at hd
  | cons p ps ih =>
    rw [forEachPush, List.mem_append] at hd
    rcases hd with hd | hd
    · exact ⟨p, List.mem_cons_self p ps, hd⟩
    · obtain ⟨q, hq, hdq⟩ := ih hd
      exact ⟨q, List.mem_cons_of_mem p hq, hdq⟩

theorem forEachPush_filter_of_not_mem {caps : List (String × ℚ)} {cur : String} {rate : ℚ}
    {cat : String} {sp : List (String × ℚ)} (h : cat ∉ sp.map Prod.fst) :
    (forEachPush (entryDrafts caps cur rate) sp).filter (fun d => d.category = cat) = [] := by
  rw [List.filter_eq_nil_iff]
  intro d hd
  obtain ⟨p, hp, hdp⟩ := forEachPush_mem hd
  have : d.category = p.1 := entryDrafts_category hdp
  simp only [this, decide_eq_true_eq]
  intro heq
  exact h (List.mem_map.mpr ⟨p, hp, heq⟩)

/-- With duplicate-free entry keys (the shape `Object.entries` always
produces), the drafts of category `cat` are exactly the drafts of `cat`'s own
entry. -/
theorem checkBudgetAlerts_filter {caps : List (String × ℚ)} {cur : String} {rate : ℚ}
    {sp : List (String × ℚ)} {cat : String} {spent : ℚ}
    (hmem : (cat, spent) ∈ sp) (hnd : (sp.map Prod.fst).Nodup) :
    (checkBudgetAlerts sp caps cur rate).filter (fun d => d.category = cat)
      = entryDrafts caps cur rate (cat, spent) := by
  induction sp with
  | nil => simp at hmem
  | cons p ps ih =>
    rw [checkBudgetAlerts, forEachPush, List.filter_append]
    rw [List.map_cons, List.nodup_cons] at hnd
    rcases List.mem_cons.mp hmem with heq | hmem'
    · subst heq
      have h1 : (entryDrafts caps cur rate (cat, spent)).filter
          (fun d => d.category = cat) = entryDrafts caps cur rate (cat, spent) := by
        rw [List.filter_eq_self]
        intro d hd
        simp [entryDrafts_category hd]
      rw [h1, forEachPush_filter_of_not_mem hnd.1, List.append_nil]
    · have hcat_tail : cat ∈ ps.map Prod.fst :=
        List.mem_map.mpr ⟨(cat, spent), hmem', rfl⟩
      have hne : p.1 ≠ cat := fun hh => hnd.1 (hh ▸ hcat_tail)
      have h0 : (entryDrafts caps cur rate p).filter (fun d => d.category = cat) = [] := by
        rw [List.filter_eq_nil_iff]
        intro d hd
        simp [entryDrafts_category hd, hne]
      rw [h0, List.nil_append]
      exact ih hmem' hnd.2

/-! ### Claims C2, C4, C8 (budget evaluator) -/

/-- The per-category sum in the words of the spec: the sum of `amount` over
exactly the transactions of the category whose `type` is `"expense"`
(income transactions contribute nothing). -/
def specExpenseSum (transactions : List Tx) (cat : String) : ℚ :=
  ((transactions.filter
      (fun tx => tx.category = cat ∧ tx.ttype = "expense")).map Tx.amount).sum

theorem calculateCategorySpending_eq (txs : List Tx) :
    calculateCategorySpending txs
      = BUDGET_CATEGORIES.map (fun c => (c.id, specExpenseSum txs c.id)) := rfl

theorem lookupQ_map_spend (cats : List BudgetCategory) (txs : List Tx) (c : String) :
    lookupQ (cats.map (fun k => (k.id, specExpenseSum txs k.id))) c
      = if c ∈ cats.map BudgetCategory.id then some (specExpenseSum txs c) else none := by
  induction cats with
  | nil => simp [lookupQ]
  | cons k ks ih =>
    simp only [List.map_cons, lookupQ]
    by_cases h : k.id = c
    · subst h
      rw [if_pos rfl, if_pos (List.mem_cons_self _ _)]
    · rw [if_neg h, ih]
      by_cases hm : c ∈ ks.map BudgetCategory.id
      · rw [if_pos hm, if_pos (List.mem_cons_of_mem _ hm)]
      · rw [if_neg hm, if_neg]
        intro hc
        rcases List.mem_cons.mp hc with hc | hc
        · exact h hc.symm
        · exact hm hc

/-- An external-feed transaction whose category is outside the predefined
list. -/
def mpesaCatTx : Tx := baseTx "m1" "expense" 50 "mpesa" "ext" 0 "mpesa"

/-- C4 counterexample: an expense transaction with the category `"mpesa"`
(not one of the ten predefined categories) contributes to no key of the
spending map — the category is absent from the result, although the claim
requires an entry for every category appearing in the input. -/
theorem claim_C4_counterexample :
    mpesaCatTx.ttype = "expense" ∧ mpesaCatTx.amount = 50 ∧
    lookupQ (calculateCategorySpending [mpesaCatTx]) "mpesa" = none :=
  ⟨rfl, rfl, rfl⟩

/-- C4 (amended): `calculateCategorySpending` maps each of the ten predefined
budget categories — and only those — to the sum of `amount` over exactly the
expense transactions of that category (income excluded); categories outside
the predefined list are absent from the result. -/
theorem claim_C4_spending (txs : List Tx) (c : String) :
    (c ∈ BUDGET_CATEGORIES.map BudgetCategory.id →
        lookupQ (calculateCategorySpending txs) c = some (specExpenseSum txs c))
    ∧ (c ∉ BUDGET_CATEGORIES.map BudgetCategory.id →
        lookupQ (calculateCategorySpending txs) c = none) := by
  rw [calculateCategorySpending_eq, lookupQ_map_spend]
  constructor
  · intro h
    rw [if_pos h]
  · intro h
    rw [if_neg h]

/-- C4 witness: the amended statement evaluated for the category `"food"` on a
singleton list. -/
theorem claim_C4_spending_witness :
    lookupQ (calculateCategorySpending [mpesaCatTx]) "food"
      = some (specExpenseSum [mpesaCatTx] "food") :=
  (claim_C4_spending [mpesaCatTx] "food").1 (by decide)

theorem entryDrafts_cap_pos {caps : List (String × ℚ)} {cur : String} {rate : ℚ}
    {p : String × ℚ} (hp : 0 ≤ p.2) {d : BudgetDraft}
    (hd : d ∈ entryDrafts caps cur rate p) :
    ∃ cap : ℚ, lookupQ caps d.category = some cap ∧ 0 < cap := by
  have hcat := entryDrafts_category hd
  obtain ⟨pcat, pspent⟩ := p
  rw [entryDrafts] at hd
  rcases hcap : lookupQ caps pcat with _ | cap
  · rw [hcap] at hd
    simp [entryDraftsAux] at hd
  · rw [hcap] at hd
    simp only [entryDraftsAux] at hd
    split_ifs at hd with h0 h100 h80
    · simp at hd
    · exact ⟨cap, by rw [hcat, hcap],
        cap_pos_of_threshold hp h0 (le_trans (by norm_num) h100)⟩
    · exact ⟨cap, by rw [hcat, hcap], cap_pos_of_threshold hp h0 h80⟩
    · simp at hd

/-- C8 counterexample: a negative cap is truthy, so `if (!cap) return;` does
not skip it; with (negative) spending −100 against cap −100 the percentage is
100 and a "Budget Exceeded" draft is emitted although the cap is ≤ 0. -/
theorem claim_C8_counterexample :
    lookupQ [("food", (-100 : ℚ))] "food" = some (-100) ∧ (-100 : ℚ) < 0 ∧
    checkBudgetAlerts [("food", (-100 : ℚ))] [("food", (-100 : ℚ))] "USD" 1
      = [highDraft "food" (-100) (-100) "USD" 1] := by
  refine ⟨rfl, by norm_num, ?_⟩
  rw [checkBudgetAlerts, forEachPush, forEachPush,
    entryDrafts_high (show lookupQ [("food", (-100 : ℚ))] "food" = some (-100) from rfl)
      (by norm_num) (by norm_num)]
  rfl

/-- C8 (amended): a category absent from the caps or with cap = 0 produces no
draft (in particular `evaluate({food: 500}, {food: 0})` yields no alert and
the guarded percentage never divides by a zero cap); provided the spending
values are nonnegative — as every spending map computed from transaction
amounts is — a negative cap produces no draft either, so every emitted draft
has a strictly positive cap.  (With a negative spending value and a negative
cap a draft can escape, as the counterexample shows.) -/
theorem claim_C8_cap_guard (spending caps : List (String × ℚ)) (cur : String) (rate : ℚ)
    (hpos : ∀ p ∈ spending, 0 ≤ p.2) :
    (∀ d ∈ checkBudgetAlerts spending caps cur rate,
        ∃ cap : ℚ, lookupQ caps d.category = some cap ∧ 0 < cap)
    ∧ checkBudgetAlerts [("food", (500 : ℚ))] [("food", 0)] cur rate = [] := by
  constructor
  · intro d hd
    rw [checkBudgetAlerts] at hd
    obtain ⟨p, hp, hdp⟩ := forEachPush_mem hd
    exact entryDrafts_cap_pos (hpos p hp) hdp
  · rw [checkBudgetAlerts, forEachPush, forEachPush,
      entryDrafts_zero (show lookupQ [("food", (0 : ℚ))] "food" = some 0 from rfl)]
    rfl

/-- C8 witness: the guard instantiated at `evaluate({food: 500}, {food: 0})`. -/
theorem claim_C8_cap_guard_witness :
    checkBudgetAlerts [("food", (500 : ℚ))] [("food", 0)] "USD" 1 = [] :=
  (claim_C8_cap_guard [("food", 500)] [("food", 0)] "USD" 1
    (fun p hp => by
      obtain rfl := List.mem_singleton.mp hp
      norm_num)).2

/-- The single ledger transaction of the end-to-end budget scenario. -/
def foodTx : Tx := baseTx "t1" "expense" 550 "food" "lunch" 0 "supabase"

theorem foodSpending_eval :
    calculateCategorySpending [foodTx]
      = [("housing", 0), ("transportation", 0), ("food", 550), ("entertainment", 0),
         ("shopping", 0), ("healthcare", 0), ("education", 0), ("personal", 0),
         ("savings", 0), ("other", 0)] := by
  simp [calculateCategorySpending, BUDGET_CATEGORIES, foodTx, baseTx]

theorem endToEnd_eval :
    checkBudgetAlerts (calculateCategorySpending [foodTx]) [("food", (600 : ℚ))] "USD" 1
      = [mediumDraft "food" 550 600 "USD" 1] := by
  rw [foodSpending_eval, checkBudgetAlerts, forEachPush, forEachPush, forEachPush,
    forEachPush, forEachPush, forEachPush, forEachPush, forEachPush, forEachPush,
    forEachPush, forEachPush]
  rw [show entryDrafts [("food", (600 : ℚ))] "USD" 1 ("housing", 0) = [] from rfl,
    show entryDrafts [("food", (600 : ℚ))] "USD" 1 ("transportation", 0) = [] from rfl,
    show entryDrafts [("food", (600 : ℚ))] "USD" 1 ("entertainment", 0) = [] from rfl,
    show entryDrafts [("food", (600 : ℚ))] "USD" 1 ("shopping", 0) = [] from rfl,
    show entryDrafts [("food", (600 : ℚ))] "USD" 1 ("healthcare", 0) = [] from rfl,
    show entryDrafts [("food", (600 : ℚ))] "USD" 1 ("education", 0) = [] from rfl,
    show entryDrafts [("food", (600 : ℚ))] "USD" 1 ("personal", 0) = [] from rfl,
    show entryDrafts [("food", (600 : ℚ))] "USD" 1 ("savings", 0) = [] from rfl,
    show entryDrafts [("food", (600 : ℚ))] "USD" 1 ("other", 0) = [] from rfl,
    entryDrafts_medium (show lookupQ [("food", (600 : ℚ))] "food" = some 600 from rfl)
      (by norm_num) (by norm_num) (by norm_num)]
  rfl

theorem mediumDraft_food_message :
    (mediumDraft "food" 550 600 "USD" 1).message
      = "You\x27ve used 92% of your USD 600.00 budget" := by
  show "You\x27ve used " ++ toString (jsRound ((550 : ℚ) / 600 * 100)) ++ "% of your " ++
      formatCurrency 600 "USD" 1 ++ " budget" = _
  rw [jsRound_eq 92 (by norm_num) (by norm_num), formatCurrency, toFixed2,
    jsRound_eq 60000 (by norm_num) (by norm_num)]
  decide

/-- C2 counterexample: in the end-to-end scenario (caps `{food: 600}`, one
food expense of 550) the code emits exactly one draft, but its title is
`"Budget Alert: Food & Dining"` — the category display name looked up in
`BUDGET_CATEGORIES` — not `"Budget Alert: food"` as the claim states. -/
theorem claim_C2_counterexample :
    checkBudgetAlerts (calculateCategorySpending [foodTx]) [("food", (600 : ℚ))] "USD" 1
      = [mediumDraft "food" 550 600 "USD" 1]
    ∧ (mediumDraft "food" 550 600 "USD" 1).title ≠ "Budget Alert: food" :=
  ⟨endToEnd_eval, by decide⟩

/-- C2 (amended): for a spending entry of category `cat` with cap > 0 (entry
keys duplicate-free, as `Object.entries` produces), percentage ≥ 100 emits
exactly one draft of severity "high" titled `"Budget Exceeded: <display
name>"`, and 80 ≤ percentage < 100 exactly one draft of severity "medium"
titled `"Budget Alert: <display name>"`; end-to-end with caps `{food: 600}`
and one food expense of 550 the pipeline yields exactly the one draft titled
`"Budget Alert: Food & Dining"` whose message contains `"92%"`. -/
theorem claim_C2_budget_evaluator :
    (∀ (spending caps : List (String × ℚ)) (cur : String) (rate : ℚ)
        (cat : String) (spent cap : ℚ),
      (cat, spent) ∈ spending → (spending.map Prod.fst).Nodup →
      lookupQ caps cat = some cap → 0 < cap →
      ((spent / cap * 100 ≥ 100 →
          (checkBudgetAlerts spending caps cur rate).filter (fun d => d.category = cat)
            = [highDraft cat spent cap cur rate])
        ∧ (¬ spent / cap * 100 ≥ 100 → spent / cap * 100 ≥ 80 →
          (checkBudgetAlerts spending caps cur rate).filter (fun d => d.category = cat)
            = [mediumDraft cat spent cap cur rate])))
    ∧ checkBudgetAlerts (calculateCategorySpending [foodTx]) [("food", (600 : ℚ))] "USD" 1
        = [mediumDraft "food" 550 600 "USD" 1]
    ∧ (mediumDraft "food" 550 600 "USD" 1).title = "Budget Alert: Food & Dining"
    ∧ (mediumDraft "food" 550 600 "USD" 1).severity = "medium"
    ∧ strContains (mediumDraft "food" 550 600 "USD" 1).message "92%" = true := by
  refine ⟨?_, endToEnd_eval, by decide, rfl, ?_⟩
  · intro spending caps cur rate cat spent cap hmem hnd hcap hcap0
    constructor
    · intro h100
      rw [checkBudgetAlerts_filter hmem hnd, entryDrafts_high hcap (ne_of_gt hcap0) h100]
    · intro h100 h80
      rw [checkBudgetAlerts_filter hmem hnd,
        entryDrafts_medium hcap (ne_of_gt hcap0) h100 h80]
  · rw [mediumDraft_food_message]
    decide

/-- C2 witness: the medium tier instantiated at the spec's own example
`evaluate({food: 900}, {food: 1000})` (90 percent of cap). -/
theorem claim_C2_budget_evaluator_witness :
    (checkBudgetAlerts [("food", (900 : ℚ))] [("food", 1000)] "USD" 1).filter
        (fun d => d.category = "food") = [mediumDraft "food" 900 1000 "USD" 1] :=
  (claim_C2_budget_evaluator.1 [("food", 900)] [("food", 1000)] "USD" 1 "food" 900 1000
      (List.mem_singleton.mpr rfl) (by simp) rfl (by norm_num)).2
    (by norm_num) (by norm_num)

/-! ## Alert store and deduplicator (`alertsService.js`)

`normalizeAlert` lower-cases the incoming `type`, maps it through a fixed
emoji/string table, and falls back to `"neutral"`; `createAlertIfNotExists`
checks unread duplicates against the *raw* draft, retires stale read
duplicates, and inserts the *normalized* draft. -/

/-- `String.prototype.toLowerCase` (ASCII case mapping; the emoji and table
keys the code compares are unaffected by case mapping). -/
def jsToLower (s : String) : String :=
  String.mk (s.data.map Char.toLower)

/-- The `VALID_TYPES` constant of `alertsService.js`. -/
def VALID_TYPES : List String := ["warning", "success", "neutral"]

/-- The `typeMap` lookup table of `normalizeAlert`, keys exactly as in the
source. -/
def typeMap : List (String × String) :=
  [("🚨", "warning"), ("⚠️", "warning"), ("❗", "warning"), ("🔥", "warning"),
   ("✅", "success"), ("💰", "success"), ("ℹ️", "neutral"), ("info", "neutral"),
   ("warning", "warning"), ("error", "warning"), ("success", "success"),
   ("neutral", "neutral"), ("scale", "neutral"), ("dollar", "success")]

/-- JavaScript property access on a string-valued object. -/
def lookupS : List (String × String) → String → Option String
  | [], _ => none
  | p :: ps, c => if p.1 = c then some p.2 else lookupS ps c

/-- JavaScript `a || d` on an optional string (absent and `""` are falsy). -/
def jsOrStr : Option String → String → String
  | some v, d => if v = "" then d else v
  | none, d => d

/-- The cascade of `normalizeAlert` after the optional lower-casing produced
`t`:
`typeMap[t] || (VALID_TYPES.includes(t) ? t : "neutral")`, then the final
safety check `if (!VALID_TYPES.includes(x)) x = "neutral"`. -/
def normalizeCascade (t : String) : String :=
  if jsOrStr (lookupS typeMap t) (if t ∈ VALID_TYPES then t else "neutral") ∈ VALID_TYPES
  then jsOrStr (lookupS typeMap t) (if t ∈ VALID_TYPES then t else "neutral")
  else "neutral"

/-- Type normalization on a string input:
`alert.type?.toLowerCase() || "neutral"` followed by the cascade. -/
def normalizeTypeStr (s : String) : String :=
  normalizeCascade (if jsToLower s = "" then "neutral" else jsToLower s)

/-- The values a producer may put in an alert draft's `type` field. -/
inductive AlertTypeVal where
  | str (s : String)
  | vnull
  | undef
  | num (q : ℚ)
  | bool (b : Bool)
deriving DecidableEq

/-- The full type normalization of `normalizeAlert`:
`alert.type?.toLowerCase()` leaves `null`/`undefined` at `undefined` (then
`|| "neutral"`), but on a number or boolean `.toLowerCase` is not a function
and the call throws a `TypeError`, modelled as `Except.error`. -/
def normalizeAlertType : AlertTypeVal → Except String String
  | .str s => .ok (normalizeTypeStr s)
  | .vnull => .ok (normalizeCascade "neutral")
  | .undef => .ok (normalizeCascade "neutral")
  | .num _ => .error "TypeError"
  | .bool _ => .error "TypeError"

/-- An alert row as stored (`fetchAlerts` returns them newest-first; the model
keeps the list newest-first, so insertion prepends). `is_read` defaults to
`false` on insert (the DB column default). -/
structure StoredAlert where
  sid : Nat
  user_id : String
  atype : String
  title : String
  message : String
  icon : Option String
  is_read : Bool
deriving DecidableEq

/-- A producer-supplied alert draft (the argument of
`createAlertIfNotExists`). -/
structure AlertDraft where
  atype : String
  title : String
  message : String
  icon : Option String
deriving DecidableEq

/-- The alerts table of one deployment: rows newest-first plus the next
fresh id. -/
structure AlertStore where
  alerts : List StoredAlert
  nextId : Nat
deriving DecidableEq

/-- The result object of `createAlertIfNotExists`. -/
structure CreateResult where
  success : Bool
  reason : Option String
deriving DecidableEq

/-- `isSimilarAlert(existingAlert, newAlert)`: exact, case-sensitive equality
of `(title, message, type)` — the stored alert's type against the draft's raw
type. -/
def isSimilarAlert (existing : StoredAlert) (d : AlertDraft) : Bool :=
  existing.title = d.title ∧ existing.message = d.message ∧ existing.atype = d.atype

/-- `alert.icon || null` — an absent or empty icon becomes `null`. -/
def jsOrNullIcon : Option String → Option String
  | some s => if s = "" then none else some s
  | none => none

/-- `createAlert`: normalize (`normalizeAlert`) and insert; the new row is
unread. -/
def insertAlert (st : AlertStore) (userId : String) (d : AlertDraft) : AlertStore :=
  ⟨⟨st.nextId, userId, normalizeTypeStr d.atype, d.title, d.message,
      jsOrNullIcon d.icon, false⟩ :: st.alerts,
    st.nextId + 1⟩

/-- `deleteAlert(id)`: remove the row with that id (no-op when absent). -/
def deleteAlert (st : AlertStore) (id : Nat) : AlertStore :=
  ⟨st.alerts.filter (fun a => ¬ a.sid = id), st.nextId⟩

/-- Sequential deletion of a list of rows (the `for ... await deleteAlert`
loop). -/
def deleteAlerts (st : AlertStore) (l : List StoredAlert) : AlertStore :=
  l.foldl (fun acc a => deleteAlert acc a.sid) st

/-- `createAlertIfNotExists(userId, alert)`:
fetch the user's alerts; abort with `{success: false, reason: "duplicate"}`
when an *unread* stored alert is similar to the raw draft; otherwise delete
all but the most recent *read* similar alert and insert the normalized
draft. -/
def createAlertIfNotExists (st : AlertStore) (userId : String) (d : AlertDraft) :
    AlertStore × CreateResult :=
  if ((st.alerts.filter (fun a => a.user_id = userId)).any
      (fun a => isSimilarAlert a d && !a.is_read)) then
    (st, ⟨false, some "duplicate"⟩)
  else
    (insertAlert
      (deleteAlerts st (((st.alerts.filter (fun a => a.user_id = userId)).filter
          (fun a => isSimilarAlert a d && a.is_read)).drop 1))
      userId d,
      ⟨true, none⟩)

/-- A sequence of sequential `createAlertIfNotExists` calls. -/
def runCreates (st : AlertStore) (calls : List (String × AlertDraft)) : AlertStore :=
  calls.foldl (fun s c => (createAlertIfNotExists s c.1 c.2).1) st

/-- No two unread alerts of the same user share `(title, message, type)`. -/
def NoUnreadDup (l : List StoredAlert) : Prop :=
  l.Pairwise (fun a b => a.user_id = b.user_id → a.is_read = false → b.is_read = false →
    ¬ (a.title = b.title ∧ a.message = b.message ∧ a.atype = b.atype))

/-! ### Claims C1, C3 (alert normalization and deduplication) -/

/-- C3 counterexample: a non-string, non-nullish `type` (here the number 42)
has no `toLowerCase` method, so `alert.type?.toLowerCase()` throws a
`TypeError` — the normalization is not total over non-string values. -/
theorem claim_C3_counterexample :
    normalizeAlertType (.num 42) = .error "TypeError" := rfl

theorem normalizeCascade_mem (t : String) :
    normalizeCascade t = "warning" ∨ normalizeCascade t = "success" ∨
      normalizeCascade t = "neutral" := by
  rw [normalizeCascade]
  by_cases h : jsOrStr (lookupS typeMap t) (if t ∈ VALID_TYPES then t else "neutral")
      ∈ VALID_TYPES
  · rw [if_pos h]
    simpa [VALID_TYPES] using h
  · rw [if_neg h]
    right
    right
    rfl

/-- C3 (amended): the normalization is total on every string, `null` and
`undefined` — each maps to exactly one of `{warning, success, neutral}`, with
`"neutral"` for `null`/`undefined` and for every string whose lower-casing
misses the lookup table; but a non-string, non-nullish value (number,
boolean) throws. -/
theorem claim_C3_normalize_total :
    (∀ s : String, normalizeAlertType (.str s) = .ok (normalizeTypeStr s)
        ∧ (normalizeTypeStr s = "warning" ∨ normalizeTypeStr s = "success" ∨
            normalizeTypeStr s = "neutral"))
    ∧ normalizeAlertType .vnull = .ok "neutral"
    ∧ normalizeAlertType .undef = .ok "neutral"
    ∧ normalizeAlertType (.str "🚨") = .ok "warning"
    ∧ (∀ s : String,
        lookupS typeMap (if jsToLower s = "" then "neutral" else jsToLower s) = none →
        normalizeAlertType (.str s) = .ok "neutral") := by
  refine ⟨fun s => ⟨rfl, normalizeCascade_mem _⟩, rfl, rfl, rfl, fun s h => ?_⟩
  show Except.ok (normalizeTypeStr s) = Except.ok "neutral"
  rw [normalizeTypeStr]
  set t := if jsToLower s = "" then "neutral" else jsToLower s with ht
  rw [normalizeCascade, h]
  by_cases hv : t ∈ VALID_TYPES
  · exfalso
    rcases (by simpa [VALID_TYPES] using hv : t = "warning" ∨ t = "success" ∨ t = "neutral")
        with h1 | h1 | h1 <;> rw [h1] at h <;> simp [typeMap, lookupS] at h
  · rw [if_neg hv]
    simp [jsOrStr, VALID_TYPES]

/-- C3 witness: an unrecognized string falls through every table entry to the
default `"neutral"`. -/
theorem claim_C3_normalize_total_witness :
    normalizeAlertType (.str "gibberish") = .ok "neutral" :=
  claim_C3_normalize_total.2.2.2.2 "gibberish" rfl

theorem normalizeTypeStr_id {s : String}
    (h : s = "warning" ∨ s = "success" ∨ s = "neutral") : normalizeTypeStr s = s := by
  rcases h with rfl | rfl | rfl <;> rfl

theorem deleteAlerts_sublist (l : List StoredAlert) (st : AlertStore) :
    (deleteAlerts st l).alerts.Sublist st.alerts := by
  induction l generalizing st with
  | nil => exact List.Sublist.refl _
  | cons a r ih =>
    rw [deleteAlerts, List.foldl_cons]
    exact (ih (deleteAlert st a.sid)).trans (List.filter_sublist _)

theorem createAlertIfNotExists_preserves {st : AlertStore} {userId : String} {d : AlertDraft}
    (hty : d.atype = "warning" ∨ d.atype = "success" ∨ d.atype = "neutral")
    (hinv : NoUnreadDup st.alerts) :
    NoUnreadDup (createAlertIfNotExists st userId d).1.alerts := by
  rw [createAlertIfNotExists]
  by_cases hdup : ((st.alerts.filter (fun a => a.user_id = userId)).any
      (fun a => isSimilarAlert a d && !a.is_read)) = true
  · rw [if_pos hdup]
    exact hinv
  · rw [if_neg hdup]
    have hsub := deleteAlerts_sublist
      (((st.alerts.filter (fun a => a.user_id = userId)).filter
        (fun a => isSimilarAlert a d && a.is_read)).drop 1) st
    have hinv1 : NoUnreadDup (deleteAlerts st
        (((st.alerts.filter (fun a => a.user_id = userId)).filter
          (fun a => isSimilarAlert a d && a.is_read)).drop 1)).alerts :=
      List.Pairwise.sublist hsub hinv
    rw [NoUnreadDup, insertAlert]
    refine List.Pairwise.cons ?_ hinv1
    intro b hb huser _ hbread hkeys
    have hbst : b ∈ st.alerts := hsub.subset hb
    have hbuser : b.user_id = userId := by simpa using huser.symm
    have hbfilter : b ∈ st.alerts.filter (fun a => a.user_id = userId) :=
      List.mem_filter.mpr ⟨hbst, by simp [hbuser]⟩
    have hnotany := hdup
    rw [List.any_eq_true] at hnotany
    apply hnotany
    refine ⟨b, hbfilter, ?_⟩
    have htitle : b.title = d.title := by simpa using hkeys.1.symm
    have hmsg : b.message = d.message := by simpa using hkeys.2.1.symm
    have hatype : b.atype = d.atype := by
      have := hkeys.2.2.symm
      simpa [normalizeTypeStr_id hty] using this
    simp [isSimilarAlert, htitle, hmsg, hatype, hbread]

/-- The draft of the duplication scenario: its raw type `"error"` normalizes
to `"warning"` on insert, so the stored type never matches the raw draft. -/
def dupDraft : AlertDraft := ⟨"error", "T", "M", none⟩

/-- C1 counterexample: starting from an empty store, the same `"error"` draft
created twice in sequence passes the duplicate check both times (it compares
the stored, already-normalized type `"warning"` against the raw type
`"error"`), leaving two unread alerts with identical (title, message, type) —
the claimed invariant is violated, and the second call reports success. -/
theorem claim_C1_counterexample :
    (createAlertIfNotExists (createAlertIfNotExists ⟨[], 0⟩ "u" dupDraft).1 "u" dupDraft).2.success
        = true
    ∧ ((createAlertIfNotExists (createAlertIfNotExists ⟨[], 0⟩ "u" dupDraft).1 "u"
          dupDraft).1.alerts.countP
        (fun a => a.user_id == "u" && !a.is_read && a.title == "T" && a.message == "M" &&
          a.atype == "warning")) = 2
    ∧ ¬ NoUnreadDup (createAlertIfNotExists (createAlertIfNotExists ⟨[], 0⟩ "u" dupDraft).1 "u"
        dupDraft).1.alerts := by
  refine ⟨rfl, rfl, ?_⟩
  intro h
  have heq : (createAlertIfNotExists (createAlertIfNotExists ⟨[], 0⟩ "u" dupDraft).1 "u"
        dupDraft).1.alerts
      = [⟨1, "u", "warning", "T", "M", none, false⟩,
         ⟨0, "u", "warning", "T", "M", none, false⟩] := rfl
  rw [NoUnreadDup, heq] at h
  rcases List.pairwise_cons.mp h with ⟨h1, _⟩
  exact h1 _ (List.mem_singleton.mpr rfl) rfl rfl rfl ⟨rfl, rfl, rfl⟩

/-- C1 (amended): a call whose draft has an unread similar alert already
stored (similarity comparing the stored type against the draft's raw type)
aborts with `{success: false, reason: "duplicate"}` and leaves the store
unchanged; and for every sequence of sequential calls whose drafts all carry
an already-normalized type (one of `"warning"`, `"success"`, `"neutral"` —
fixed points of the normalization), the store never holds two unread alerts
with identical (title, message, type) for the same user.  (For a draft type
that is not a fixed point, the inserted row's type differs from the raw
draft and the invariant fails, as the counterexample shows.) -/
theorem claim_C1_dedup :
    (∀ (st : AlertStore) (userId : String) (d : AlertDraft),
      (∃ a ∈ st.alerts, a.user_id = userId ∧ a.is_read = false ∧ isSimilarAlert a d = true) →
      createAlertIfNotExists st userId d = (st, ⟨false, some "duplicate"⟩))
    ∧ (∀ (st : AlertStore) (calls : List (String × AlertDraft)),
      (∀ c ∈ calls, c.2.atype = "warning" ∨ c.2.atype = "success" ∨ c.2.atype = "neutral") →
      NoUnreadDup st.alerts → NoUnreadDup (runCreates st calls).alerts) := by
  constructor
  · intro st userId d hdup
    obtain ⟨a, ha, hauser, haread, hasim⟩ := hdup
    rw [createAlertIfNotExists, if_pos]
    rw [List.any_eq_true]
    refine ⟨a, List.mem_filter.mpr ⟨ha, by simp [hauser]⟩, ?_⟩
    simp [hasim, haread]
  · intro st calls hty hinv
    induction calls generalizing st with
    | nil => exact hinv
    | cons c cs ih =>
      rw [runCreates, List.foldl_cons]
      exact ih _ (fun x hx => hty x (List.mem_cons_of_mem c hx))
        (createAlertIfNotExists_preserves (hty c (List.mem_cons_self c cs)) hinv)

/-- C1 witness: the abort branch at a store already holding the unread alert,
and the invariant after one normalized-type call on the empty store. -/
theorem claim_C1_dedup_witness :
    createAlertIfNotExists ⟨[⟨0, "u", "warning", "T", "M", none, false⟩], 1⟩ "u"
        ⟨"warning", "T", "M", none⟩
      = (⟨[⟨0, "u", "warning", "T", "M", none, false⟩], 1⟩, ⟨false, some "duplicate"⟩)
    ∧ NoUnreadDup (runCreates ⟨[], 0⟩ [("u", ⟨"warning", "T", "M", none⟩)]).alerts :=
  ⟨claim_C1_dedup.1 _ "u" _
      ⟨⟨0, "u", "warning", "T", "M", none, false⟩, List.mem_singleton.mpr rfl, rfl, rfl, rfl⟩,
   claim_C1_dedup.2 ⟨[], 0⟩ _
      (fun c hc => by
        rcases List.mem_singleton.mp hc with rfl
        left
        rfl)
      (by rw [NoUnreadDup]; exact List.Pairwise.nil)⟩

/-! ## Normalizer and aggregator (`useTransactions.js`)

`fetchMpesaTransactions` polls the external feed with an 8-second timeout and
returns `[]` on timeout, abort, a non-2xx status, or a non-array body;
otherwise it normalizes each raw record (KES → USD conversion, id
assignment, defaulted fields).  `fetchTransactions` concatenates the ledger
rows with the feed result, sorts by parsed date descending (JavaScript
`Array.prototype.sort` is stable, modelled by a stable insertion sort), and
maps the result to the display currency before storing it.  Unmodelled
record fields (`user_id`, timestamps, M-Pesa phone/name) affect no claim. -/

/-- A raw record of the external feed, with the fields the normalization
reads.  `amount` stands for `parseFloat(tx.amount) || 0`, `date` for the
parsed `Date` of `tx.date` when present. -/
structure RawMpesa where
  rid : Option String
  source : Option String
  transaction_type : String
  amount : ℚ
  category : Option String
  description : Option String
  date : Option ℤ
  mpesa_reference : Option String
  transaction_id : Option String
deriving DecidableEq

/-- The outcome of one `fetch` of the external feed. -/
inductive FeedOutcome where
  | ok (records : List RawMpesa)
  | timeout
  | aborted
  | httpError (status : ℕ)
  | notArray
deriving DecidableEq

/-- Truthiness of an optional string (`undefined` and `""` are falsy). -/
def truthyStrOpt : Option String → Bool
  | some str => str ≠ ""
  | none => false

/-- `generateMpesaId(tx, index)` from `useTransactions.js`; `Date.now()` is
the `nowTs` parameter. -/
def generateMpesaId (tx : RawMpesa) (index : ℕ) (nowTs : ℤ) : String :=
  if truthyStrOpt tx.rid ∧ tx.rid ≠ some "" ∧ tx.source ≠ some "mpesa" then tx.rid.getD ""
  else if truthyStrOpt tx.mpesa_reference then "mpesa-ref-" ++ tx.mpesa_reference.getD ""
  else if truthyStrOpt tx.transaction_id then "mpesa-tid-" ++ tx.transaction_id.getD ""
  else "mpesa-local-" ++ toString nowTs ++ "-" ++ toString index

/-- Per-record normalization of the feed: income iff the lower-cased
transaction type contains `"receive"`, KES amount converted to USD through
`convertCurrency`, category and description defaulted, missing date replaced
by the current time. -/
def normalizeMpesa (tx : RawMpesa) (index : ℕ) (nowTs : ℤ) : Tx :=
  ⟨generateMpesaId tx index nowTs,
    if strContains (jsToLower tx.transaction_type) "receive" then "income" else "expense",
    JSNum.toQ (convertCurrency (.num tx.amount) "KES" "USD" exchangeRates),
    jsOrStr tx.category "M-Pesa",
    jsOrStr tx.description ("M-Pesa " ++ tx.transaction_type),
    tx.date.getD nowTs,
    "mpesa", none, none, some tx.amount⟩

/-- `fetchMpesaTransactions`: a successful poll yields the normalized
records; timeout, abort, non-2xx and non-array bodies all yield `[]`. -/
def fetchMpesaTransactions : FeedOutcome → ℤ → List Tx
  | .ok records, nowTs => records.enum.map (fun p => normalizeMpesa p.2 p.1 nowTs)
  | .timeout, _ => []
  | .aborted, _ => []
  | .httpError _, _ => []
  | .notArray, _ => []

/-- Stable insertion of a record into a date-descending list: the record goes
after every earlier record with a strictly greater date and before the first
record whose date is not greater, so records of equal date keep their input
order. -/
def insertByDateDesc (r : Tx) : List Tx → List Tx
  | [] => [r]
  | x :: xs => if r.date < x.date then x :: insertByDateDesc r xs else r :: x :: xs

/-- The stable date-descending sort
`rawTxs.sort((a, b) => new Date(b.date) - new Date(a.date))`
(`Array.prototype.sort` is stable per ES2019). -/
def sortByDateDesc : List Tx → List Tx
  | [] => []
  | x :: xs => insertByDateDesc x (sortByDateDesc xs)

/-- `mapToDisplayCurrency`: attach
`display_amount = parseFloat(convertCurrency(amount, "USD", sel).toFixed(2))`
and `display_currency = sel` to every record. -/
def mapToDisplayCurrency (txs : List Tx) (selectedCurrency : String) : List Tx :=
  txs.map (fun tx =>
    { tx with
      displayAmount := some (round2 (JSNum.toQ (convertCurrency
          (.num tx.amount) "USD" selectedCurrency exchangeRates))),
      displayCurrency := some selectedCurrency })

/-- Steps 3–5 of `fetchTransactions`: merge the ledger rows with the feed
result, sort by date descending, convert to the display currency; the result
is what `setTransactions` stores. -/
def fetchTransactionsMerge (ledger : List Tx) (feed : FeedOutcome) (nowTs : ℤ)
    (selectedCurrency : String) : List Tx :=
  mapToDisplayCurrency (sortByDateDesc (ledger ++ fetchMpesaTransactions feed nowTs))
    selectedCurrency

/-! ### Sorting lemmas -/

theorem insertByDateDesc_perm (r : Tx) (l : List Tx) :
    List.Perm (insertByDateDesc r l) (r :: l) := by
  induction l with
  | nil => exact List.Perm.refl _
  | cons x xs ih =>
    rw [insertByDateDesc]
    by_cases h : r.date < x.date
    · rw [if_pos h]
      exact (ih.cons x).trans (List.Perm.swap r x xs)
    · rw [if_neg h]

theorem sortByDateDesc_perm (l : List Tx) : List.Perm (sortByDateDesc l) l := by
  induction l with
  | nil => exact List.Perm.refl _
  | cons x xs ih =>
    rw [sortByDateDesc]
    exact (insertByDateDesc_perm x (sortByDateDesc xs)).trans (ih.cons x)

theorem insertByDateDesc_sorted {r : Tx} {l : List Tx}
    (hl : l.Pairwise (fun a b => b.date ≤ a.date)) :
    (insertByDateDesc r l).Pairwise (fun a b => b.date ≤ a.date) := by
  induction l with
  | nil => simp [insertByDateDesc]
  | cons x xs ih =>
    rw [List.pairwise_cons] at hl
    rw [insertByDateDesc]
    by_cases h : r.date < x.date
    · rw [if_pos h]
      refine List.pairwise_cons.mpr ⟨?_, ih hl.2⟩
      intro b hb
      rcases List.mem_cons.mp ((insertByDateDesc_perm r xs).mem_iff.mp hb) with hb | hb
      · rw [hb]
        exact le_of_lt h
      · exact hl.1 b hb
    · rw [if_neg h]
      push_neg at h
      refine List.pairwise_cons.mpr ⟨?_, List.pairwise_cons.mpr hl⟩
      intro b hb
      rcases List.mem_cons.mp hb with hb | hb
      · rw [hb]
        exact h
      · exact le_trans (hl.1 b hb) h

theorem sortByDateDesc_sorted (l : List Tx) :
    (sortByDateDesc l).Pairwise (fun a b => b.date ≤ a.date) := by
  induction l with
  | nil => exact List.Pairwise.nil
  | cons x xs ih =>
    rw [sortByDateDesc]
    exact insertByDateDesc_sorted ih

theorem filter_insertByDateDesc (r : Tx) (l : List Tx) (d : ℤ) :
    (insertByDateDesc r l).filter (fun t => t.date = d)
      = if r.date = d then r :: l.filter (fun t => t.date = d)
        else l.filter (fun t => t.date = d) := by
  induction l with
  | nil =>
    rw [insertByDateDesc]
    by_cases h : r.date = d
    · rw [if_pos h]
      simp [h]
    · rw [if_neg h]
      simp [h]
  | cons x xs ih =>
    rw [insertByDateDesc]
    by_cases h : r.date < x.date
    · rw [if_pos h]
      by_cases hx : x.date = d
      · have hr : ¬ r.date = d := by
          intro hr
          rw [hr, hx] at h
          exact lt_irrefl d h
        rw [List.filter_cons_of_pos (by simp [hx]), ih, if_neg hr, if_neg hr,
          List.filter_cons_of_pos (by simp [hx])]
      · rw [List.filter_cons_of_neg (by simp [hx]), ih,
          List.filter_cons_of_neg (by simp [hx])]
    · rw [if_neg h]
      by_cases hr : r.date = d
      · rw [List.filter_cons_of_pos (by simp [hr]), if_pos hr]
      · rw [List.filter_cons_of_neg (by simp [hr]), if_neg hr]

/-- Stability: sorting commutes with selecting the records of any fixed date,
so records of equal date keep their input order. -/
theorem sortByDateDesc_filter (l : List Tx) (d : ℤ) :
    (sortByDateDesc l).filter (fun t => t.date = d) = l.filter (fun t => t.date = d) := by
  induction l with
  | nil => rfl
  | cons x xs ih =>
    rw [sortByDateDesc, filter_insertByDateDesc]
    by_cases h : x.date = d
    · rw [if_pos h, ih, List.filter_cons_of_pos (by simp [h])]
    · rw [if_neg h, ih, List.filter_cons_of_neg (by simp [h])]

theorem mapToDisplayCurrency_date (txs : List Tx) (sel : String) :
    (mapToDisplayCurrency txs sel).map Tx.date = txs.map Tx.date := by
  rw [mapToDisplayCurrency, List.map_map]
  rfl

/-! ### Claims C5, C7 (aggregator) -/

/-- C7: whatever order the adapters deliver their records in, the merged
result is a permutation of the concatenation, sorted by date descending, with
records of equal date kept in their stable input order; the display-mapped
list that is actually stored has the same date sequence, hence is sorted as
well. -/
theorem claim_C7_merge_sorted :
    (∀ ledger mpesa : List Tx,
      List.Perm (sortByDateDesc (ledger ++ mpesa)) (ledger ++ mpesa)
      ∧ (sortByDateDesc (ledger ++ mpesa)).Pairwise (fun a b => b.date ≤ a.date)
      ∧ ∀ d : ℤ, (sortByDateDesc (ledger ++ mpesa)).filter (fun t => t.date = d)
          = (ledger ++ mpesa).filter (fun t => t.date = d))
    ∧ (∀ (ledger mpesa : List Tx) (feed : FeedOutcome) (nowTs : ℤ) (sel : String),
      (mapToDisplayCurrency (sortByDateDesc (ledger ++ mpesa)) sel).Pairwise
        (fun a b => b.date ≤ a.date)
      ∧ (fetchTransactionsMerge ledger feed nowTs sel).Pairwise
        (fun a b => b.date ≤ a.date)) := by
  have hmapPairwise : ∀ (l : List Tx) (sel : String),
      l.Pairwise (fun a b => b.date ≤ a.date) →
      (mapToDisplayCurrency l sel).Pairwise (fun a b => b.date ≤ a.date) := by
    intro l sel hl
    rw [mapToDisplayCurrency]
    exact (List.pairwise_map).mpr hl
  refine ⟨fun ledger mpesa =>
      ⟨sortByDateDesc_perm _, sortByDateDesc_sorted _, fun d => sortByDateDesc_filter _ d⟩,
    fun ledger mpesa feed nowTs sel =>
      ⟨hmapPairwise _ sel (sortByDateDesc_sorted _),
       hmapPairwise _ sel (sortByDateDesc_sorted _)⟩⟩

/-- The ledger row of the timeout scenario. -/
def ledgerTx1 : Tx := baseTx "s1" "expense" 10 "food" "groceries" 100 "supabase"

/-- A feed record of the previous (successful) poll. -/
def mpesaRaw1 : RawMpesa :=
  ⟨none, none, "ReceiveMoney", 1000, none, none, some 50, some "R1", none⟩

/-- C5 counterexample: with a ledger row and one previously fetched feed
record on screen (two records), a poll that times out re-merges the ledger
with the empty feed result: the stored collection shrinks to the ledger row
alone and is not deep-equal to its pre-poll value — the earlier feed records
are dropped, not preserved. -/
theorem claim_C5_counterexample :
    (fetchTransactionsMerge [ledgerTx1] (.ok [mpesaRaw1]) 0 "USD").length = 2
    ∧ (fetchTransactionsMerge [ledgerTx1] .timeout 0 "USD").length = 1
    ∧ fetchTransactionsMerge [ledgerTx1] (.ok [mpesaRaw1]) 0 "USD"
        ≠ fetchTransactionsMerge [ledgerTx1] .timeout 0 "USD" := by
  refine ⟨rfl, rfl, fun h => ?_⟩
  have hlen := congrArg List.length h
  rw [show (fetchTransactionsMerge [ledgerTx1] (.ok [mpesaRaw1]) 0 "USD").length = 2 from rfl,
    show (fetchTransactionsMerge [ledgerTx1] .timeout 0 "USD").length = 1 from rfl] at hlen
  exact absurd hlen (by decide)

/-- C5 (amended): a poll that times out (or is aborted, returns non-2xx, or a
non-array body) is treated as an empty feed result, and the merged collection
then equals the merge of the ledger with the empty feed; it is deep-equal to
its pre-poll value exactly when that pre-poll value was itself the merge with
no feed records (previously fetched feed records are dropped, as the
counterexample shows). -/
theorem claim_C5_timeout_frame :
    (∀ nowTs : ℤ,
      fetchMpesaTransactions .timeout nowTs = []
      ∧ fetchMpesaTransactions .aborted nowTs = []
      ∧ (∀ status : ℕ, fetchMpesaTransactions (.httpError status) nowTs = [])
      ∧ fetchMpesaTransactions .notArray nowTs = [])
    ∧ (∀ (ledger : List Tx) (nowTs : ℤ) (sel : String) (prev : List Tx),
      prev = fetchTransactionsMerge ledger (.ok []) nowTs sel →
      fetchTransactionsMerge ledger .timeout nowTs sel = prev) := by
  refine ⟨fun nowTs => ⟨rfl, rfl, fun _ => rfl, rfl⟩, fun ledger nowTs sel prev hprev => ?_⟩
  rw [hprev]
  rfl

/-- C5 witness: the frame property instantiated at the scenario's ledger. -/
theorem claim_C5_timeout_frame_witness :
    fetchTransactionsMerge [ledgerTx1] .timeout 0 "USD"
      = fetchTransactionsMerge [ledgerTx1] (.ok []) 0 "USD" :=
  claim_C5_timeout_frame.2 [ledgerTx1] 0 "USD" _ rfl

end FinTrack
